import Mathlib

/-!
Shallow embedding of the bevy-fusabi script asset pipeline.

Source files embedded:
- `src/loader.rs` : `FusabiLoader::load`, `compile_source`, `FusabiLoaderError`
- `src/asset.rs`  : `FusabiScript`, `FusabiHeader`
- `src/runner.rs` : `RunScript`, `run_scripts`

External collaborators (the `fusabi_frontend` lexer/parser/compiler, the
`fusabi_vm` serializer/deserializer and virtual machine, and Rust std's
UTF-8 decoding and path handling) are modelled as explicit parameters or
as faithful re-implementations of their documented semantics.  Bytes are
`Nat`s below 256; paths are modelled by their final component (the file
name) as raw bytes, `none` when the path has no file name, matching
`std::path::Path::file_name`.
-/

namespace BevyFusabi

/-! ### UTF-8 decoding, as performed by `String::from_utf8` / `OsStr::to_str`.

Rust accepts exactly the well-formed UTF-8 byte sequences: no overlong
encodings, no surrogate code points, nothing above U+10FFFF. -/

/-- Checks that a byte is a UTF-8 continuation byte (`0x80 ..= 0xBF`). -/
def isCont (b : Nat) : Bool := 0x80 ≤ b && b ≤ 0xBF

/-- Valid range of the second byte of a three-byte sequence, which depends on
the leading byte (excludes overlong encodings and surrogates). -/
def cont3snd (b1 b2 : Nat) : Bool :=
  if b1 = 0xE0 then 0xA0 ≤ b2 && b2 ≤ 0xBF
  else if b1 = 0xED then 0x80 ≤ b2 && b2 ≤ 0x9F
  else isCont b2

/-- Valid range of the second byte of a four-byte sequence, which depends on
the leading byte (excludes overlong encodings and values above U+10FFFF). -/
def cont4snd (b1 b2 : Nat) : Bool :=
  if b1 = 0xF0 then 0x90 ≤ b2 && b2 ≤ 0xBF
  else if b1 = 0xF4 then 0x80 ≤ b2 && b2 ≤ 0x8F
  else isCont b2

/-- Decodes a byte list as UTF-8 into characters, `none` on any ill-formed
sequence.  Mirrors the validity rules enforced by Rust's
`String::from_utf8` and `str::from_utf8`. -/
def utf8Chars : List Nat → Option (List Char)
  | [] => some []
  | b1 :: r1 =>
    if b1 ≤ 0x7F then
      (utf8Chars r1).map (fun cs => Char.ofNat b1 :: cs)
    else if b1 ≤ 0xC1 then none
    else if b1 ≤ 0xDF then
      match r1 with
      | b2 :: r2 =>
        if isCont b2 then
          (utf8Chars r2).map
            (fun cs => Char.ofNat ((b1 - 0xC0) * 0x40 + (b2 - 0x80)) :: cs)
        else none
      | [] => none
    else if b1 ≤ 0xEF then
      match r1 with
      | b2 :: b3 :: r3 =>
        if cont3snd b1 b2 && isCont b3 then
          (utf8Chars r3).map
            (fun cs =>
              Char.ofNat (((b1 - 0xE0) * 0x40 + (b2 - 0x80)) * 0x40 + (b3 - 0x80)) :: cs)
        else none
      | _ => none
    else if b1 ≤ 0xF4 then
      match r1 with
      | b2 :: b3 :: b4 :: r4 =>
        if cont4snd b1 b2 && isCont b3 && isCont b4 then
          (utf8Chars r4).map
            (fun cs =>
              Char.ofNat ((((b1 - 0xF0) * 0x40 + (b2 - 0x80)) * 0x40 + (b3 - 0x80)) * 0x40
                + (b4 - 0x80)) :: cs)
        else none
      | _ => none
    else none

/-- Decodes a byte list as a UTF-8 string, `none` when the bytes are not
valid UTF-8.  Models `String::from_utf8(bytes).ok()` and
`OsStr::to_str`. -/
def utf8DecodeStr (bs : List Nat) : Option String :=
  (utf8Chars bs).map (fun cs => String.mk cs)

/-! ### Path semantics: `Path::file_stem` and `Path::extension`.

Per the Rust documentation, for a file name `f`: the extension is `none`
when `f` has no embedded `.` or when the only `.` is the leading byte;
otherwise the stem is the part before the final `.` and the extension the
part after it. -/

/-- Splits a file name (as raw bytes) into its stem and optional extension,
following the documented semantics of `Path::file_stem` and
`Path::extension`.  Byte 46 is the ASCII dot. -/
def fileStemExt (f : List Nat) : List Nat × Option (List Nat) :=
  let revTail := f.reverse.takeWhile (fun b => b ≠ 46)
  if revTail.length = f.length then (f, none)
  else
    let dotPos := f.length - 1 - revTail.length
    if dotPos = 0 then (f, none)
    else (f.take dotPos, some (f.drop (dotPos + 1)))

/-- Models `path.extension().and_then(|s| s.to_str()).unwrap_or("")` from
`FusabiLoader::load`: the file name's extension decoded as UTF-8, or the
empty string when the path has no file name, no extension, or the
extension is not valid UTF-8. -/
def extOf (fileName : Option (List Nat)) : String :=
  ((fileName.bind fun f => (fileStemExt f).2).bind utf8DecodeStr).getD ""

/-- Models `path.file_stem().and_then(|s| s.to_str()).unwrap_or("unknown")`
from `FusabiLoader::load`: the file name's stem decoded as UTF-8, or
`"unknown"` when the path has no file name or the stem is not valid
UTF-8. -/
def nameOf (fileName : Option (List Nat)) : String :=
  ((fileName.map fun f => (fileStemExt f).1).bind utf8DecodeStr).getD "unknown"

/-! ### `src/asset.rs` -/

/-- The loaded script asset (`FusabiScript` in `src/asset.rs`): a name and
the serialized bytecode. -/
structure FusabiScript where
  name : String
  bytecode : List Nat
deriving DecidableEq

/-- Constructor `FusabiScript::new`. -/
def FusabiScript.new (name : String) (bytecode : List Nat) : FusabiScript :=
  ⟨name, bytecode⟩

/-- Metadata header for `.fzb` files (`FusabiHeader` in `src/asset.rs`).
Declared by the crate; note that no code under `src/` ever constructs or
inspects it. -/
structure FusabiHeader where
  magic : Nat
  version : Nat
  timestamp : Nat
deriving DecidableEq

/-! ### `src/loader.rs` -/

/-- Error type `FusabiLoaderError` of `src/loader.rs`.  Stage errors carry
the formatted message of the underlying frontend / codec error. -/
inductive FusabiLoaderError where
  | Io (msg : String)
  | Lexer (msg : String)
  | Parser (msg : String)
  | Compiler (msg : String)
  | Bytecode (msg : String)
  | Utf8 (msg : String)
deriving DecidableEq

/-- The opaque compile and codec services used by the loader: the
`fusabi_frontend` crate's `Lexer::tokenize`, `Parser::parse_program`,
`Compiler::compile_program` with their `Debug` formatting, and the
`fusabi_vm` crate's `serialize_chunk` with its error display.  These are
external collaborators; the loader is parametrized over them. -/
structure Frontend (Tok Prog Chunk LE PE CE SE : Type) where
  tokenize : String → Except LE Tok
  parseProgram : Tok → Except PE Prog
  compileProgram : Prog → Except CE Chunk
  fmtLex : LE → String
  fmtParse : PE → String
  fmtCompile : CE → String
  serializeChunk : Chunk → Except SE (List Nat)
  fmtSer : SE → String

section Loader

variable {Tok Prog Chunk LE PE CE SE : Type}

/-- Embeds `compile_source` of `src/loader.rs`: tokenize, then parse, then
compile, each failure mapped into its own `FusabiLoaderError` constructor
with the stage error's formatted message. -/
def compile_source (fe : Frontend Tok Prog Chunk LE PE CE SE) (source : String) :
    Except FusabiLoaderError Chunk :=
  match fe.tokenize source with
  | Except.error e => Except.error (FusabiLoaderError.Lexer (fe.fmtLex e))
  | Except.ok tokens =>
    match fe.parseProgram tokens with
    | Except.error e => Except.error (FusabiLoaderError.Parser (fe.fmtParse e))
    | Except.ok program =>
      match fe.compileProgram program with
      | Except.error e => Except.error (FusabiLoaderError.Compiler (fe.fmtCompile e))
      | Except.ok chunk => Except.ok chunk

/-- Embeds the source branch of `FusabiLoader::load`: decode the bytes as
UTF-8 (the `String::from_utf8(bytes)?` line, failing with the `Utf8`
error), compile via `compile_source`, then serialize the chunk, mapping a
serialization failure to the `Bytecode` error. -/
def loadFromSource (fe : Frontend Tok Prog Chunk LE PE CE SE) (name : String)
    (bytes : List Nat) : Except FusabiLoaderError FusabiScript :=
  match utf8DecodeStr bytes with
  | none => Except.error (FusabiLoaderError.Utf8 "invalid utf-8 sequence")
  | some source =>
    match compile_source fe source with
    | Except.error e => Except.error e
    | Except.ok chunk =>
      match fe.serializeChunk chunk with
      | Except.error e => Except.error (FusabiLoaderError.Bytecode (fe.fmtSer e))
      | Except.ok bc => Except.ok (FusabiScript.new name bc)

/-- Embeds `FusabiLoader::load` of `src/loader.rs`: compute the extension
hint and the asset name from the path, then either pass the bytes through
unchanged (extension `"fzb"`) or compile them as source. -/
def load (fe : Frontend Tok Prog Chunk LE PE CE SE) (fileName : Option (List Nat))
    (bytes : List Nat) : Except FusabiLoaderError FusabiScript :=
  if extOf fileName = "fzb" then Except.ok (FusabiScript.new (nameOf fileName) bytes)
  else loadFromSource fe (nameOf fileName) bytes

end Loader

/-! ### `src/runner.rs` -/

/-- Component `RunScript` of `src/runner.rs`: a handle to the script asset
and the `executed` flag.  Handles are modelled as `Nat` keys into the
asset store. -/
structure RunScript where
  handle : Nat
  executed : Bool
deriving DecidableEq

/-- The external services the `run_scripts` system consults, one record per
scheduling pass: `Assets::get` (asset resolution by handle, backed by the
`Res<Assets<FusabiScript>>` store), `fusabi_vm::deserialize_chunk` with
its error display (called through `FusabiScript::to_chunk`), `Vm::new`
and `Vm::execute`. -/
structure RunnerEnv (Chunk Vm Value RErr : Type) where
  resolve : Nat → Option FusabiScript
  deserializeChunk : List Nat → Except String Chunk
  vmNew : Vm
  execute : Vm → Chunk → Except RErr Value

/-- Models the `println!` output of `run_scripts`, in order: the
"Executing script" line, then either the execution result, the execution
failure, or the chunk-deserialization failure. -/
inductive LogEntry (Value RErr : Type) where
  | executing (name : String)
  | result (v : Value)
  | execFailed (e : RErr)
  | chunkFailed (e : String)

section Runner

variable {Chunk Vm Value RErr : Type}

/-- Embeds one loop iteration of `run_scripts` in `src/runner.rs` for a
single `RunScript` component: skip when `executed`, otherwise resolve the
asset, deserialize its bytecode, construct a fresh VM and execute,
setting `executed := true` exactly on VM success.  Returns the updated
component and the log lines printed. -/
def stepRunner (env : RunnerEnv Chunk Vm Value RErr) (r : RunScript) :
    RunScript × List (LogEntry Value RErr) :=
  if r.executed then (r, [])
  else
    match env.resolve r.handle with
    | none => (r, [])
    | some script =>
      match env.deserializeChunk script.bytecode with
      | Except.error e =>
        (r, [LogEntry.executing script.name, LogEntry.chunkFailed e])
      | Except.ok chunk =>
        match env.execute env.vmNew chunk with
        | Except.ok v =>
          ({ r with executed := true },
           [LogEntry.executing script.name, LogEntry.result v])
        | Except.error e =>
          (r, [LogEntry.executing script.name, LogEntry.execFailed e])

/-- Embeds the full `run_scripts` system for one scheduling pass: every
`RunScript` in the query is stepped, each mutated in place independently;
the asset store is read-only (`Res`).  Returns the updated components and
the concatenated log. -/
def runScripts (env : RunnerEnv Chunk Vm Value RErr) (rs : List RunScript) :
    List RunScript × List (LogEntry Value RErr) :=
  (rs.map (fun r => (stepRunner env r).1),
   (rs.map (fun r => (stepRunner env r).2)).flatten)

/-- Successive scheduling passes applied to one runner; each pass may see a
different environment (assets load over time).  Returns the runner's
state after every pass, including the initial state. -/
def trajectory (envs : List (RunnerEnv Chunk Vm Value RErr)) (r : RunScript) :
    List RunScript :=
  match envs with
  | [] => [r]
  | env :: rest => r :: trajectory rest (stepRunner env r).1

/-- Counts the false-to-true transitions between adjacent elements of a
boolean trace. -/
def riseCount : List Bool → Nat
  | [] => 0
  | [_] => 0
  | a :: b :: rest =>
    (if a = false ∧ b = true then 1 else 0) + riseCount (b :: rest)

end Runner

/-! ### The Bytecode Codec -/

/-- Modelled from the spec: the Bytecode Codec (`serialize_chunk` /
`deserialize_chunk`) lives in the external `fusabi_vm` crate and is not
under `src/`; only its callers are.  Per the spec it serializes the
compiler's intermediate representation — a bytecode unit — "to/from a
flat byte buffer".  The unit is modelled as instruction bytes plus a
constant pool. -/
structure ChunkM where
  code : List Nat
  constants : List Nat
deriving DecidableEq

/-- Encodes one natural as a self-delimiting byte run (unary ones closed by
a zero byte), an injective prefix-free code into bytes. -/
def encodeNat (n : Nat) : List Nat := List.replicate n 1 ++ [0]

/-- Decodes one `encodeNat`-encoded natural, returning the value and the
remaining bytes. -/
def decodeNat : List Nat → Option (Nat × List Nat)
  | [] => none
  | 0 :: rest => some (0, rest)
  | 1 :: rest => (decodeNat rest).map (fun p => (p.1 + 1, p.2))
  | _ => none

/-- Encodes a list of naturals with a length prefix. -/
def encodeNatList (l : List Nat) : List Nat :=
  encodeNat l.length ++ (l.map encodeNat).flatten

/-- Decodes exactly `k` `encodeNat`-encoded naturals. -/
def decodeNats : Nat → List Nat → Option (List Nat × List Nat)
  | 0, bs => some ([], bs)
  | k + 1, bs =>
    (decodeNat bs).bind fun p =>
      (decodeNats k p.2).map fun q => (p.1 :: q.1, q.2)

/-- Decodes one length-prefixed list of naturals. -/
def decodeNatList (bs : List Nat) : Option (List Nat × List Nat) :=
  (decodeNat bs).bind fun p => decodeNats p.1 p.2

/-- Modelled from the spec: `fusabi_vm::serialize_chunk`, flattening a
bytecode unit into a byte buffer. -/
def serialize_chunk (c : ChunkM) : List Nat :=
  encodeNatList c.code ++ encodeNatList c.constants

/-- Modelled from the spec: `fusabi_vm::deserialize_chunk`, parsing a byte
buffer back into a bytecode unit, failing on malformed or trailing
input. -/
def deserialize_chunk (bs : List Nat) : Except String ChunkM :=
  match decodeNatList bs with
  | none => Except.error "malformed bytecode"
  | some (code, rest) =>
    match decodeNatList rest with
    | none => Except.error "malformed bytecode"
    | some (constants, rest2) =>
      if rest2 = [] then Except.ok ⟨code, constants⟩
      else Except.error "trailing bytes"

/-! ### Concrete instances used to evaluate the theorems on real inputs. -/

/-- Bytes of the file name `"script.fzb"`. -/
def fnFzb : List Nat := [115, 99, 114, 105, 112, 116, 46, 102, 122, 98]

/-- Bytes of the file name `"script.fsx"`. -/
def fnFsx : List Nat := [115, 99, 114, 105, 112, 116, 46, 102, 115, 120]

/-- Bytes of the extensionless file name `"script"`. -/
def fnBare : List Nat := [115, 99, 114, 105, 112, 116]

/-- Frontend instance whose stages all succeed and serialize to `[7]`. -/
def feOk : Frontend Unit Unit Unit Unit Unit Unit Unit :=
  ⟨fun _ => Except.ok (), fun _ => Except.ok (), fun _ => Except.ok (),
   fun _ => "L", fun _ => "P", fun _ => "C", fun _ => Except.ok [7], fun _ => "S"⟩

/-- Frontend instance whose lexer stage fails. -/
def feLexFail : Frontend Unit Unit Unit Unit Unit Unit Unit :=
  ⟨fun _ => Except.error (), fun _ => Except.ok (), fun _ => Except.ok (),
   fun _ => "L", fun _ => "P", fun _ => "C", fun _ => Except.ok [7], fun _ => "S"⟩

/-- A pending runner on handle 0. -/
def r0 : RunScript := ⟨0, false⟩

/-- A second pending runner sharing handle 0. -/
def r1 : RunScript := ⟨0, false⟩

/-- A runner that has already executed. -/
def rDone : RunScript := ⟨0, true⟩

/-- Runner environment: asset resolved, deserialization succeeds, execution
succeeds with value 1. -/
def envOk1 : RunnerEnv Unit Unit Nat Unit :=
  ⟨fun _ => some (FusabiScript.new "script" [0]), fun _ => Except.ok (), (),
   fun _ _ => Except.ok 1⟩

/-- Runner environment identical to `envOk1` but the execution returns 2. -/
def envOk2 : RunnerEnv Unit Unit Nat Unit :=
  ⟨fun _ => some (FusabiScript.new "script" [0]), fun _ => Except.ok (), (),
   fun _ _ => Except.ok 2⟩

/-- Runner environment whose VM execution fails. -/
def envExecFail : RunnerEnv Unit Unit Nat Unit :=
  ⟨fun _ => some (FusabiScript.new "script" [0]), fun _ => Except.ok (), (),
   fun _ _ => Except.error ()⟩

/-- Runner environment whose chunk deserialization fails on the bytes
`[222, 173]`. -/
def envDeserFail : RunnerEnv Unit Unit Nat Unit :=
  ⟨fun _ => some (FusabiScript.new "script" [222, 173]),
   fun _ => Except.error "bad magic", (), fun _ _ => Except.ok 0⟩

/-- Runner environment with a `Bool` VM-state type whose fresh state is
`false`. -/
def envFresh : RunnerEnv Unit Bool Nat Unit :=
  ⟨fun _ => some (FusabiScript.new "script" [0]), fun _ => Except.ok (), false,
   fun _ _ => Except.ok 1⟩

/-- Execute function returning 1 on every VM state. -/
def exA : Bool → Unit → Except Unit Nat := fun _ _ => Except.ok 1

/-- Execute function agreeing with `exA` on the fresh VM state `false` but
differing on the stale state `true`. -/
def exB : Bool → Unit → Except Unit Nat :=
  fun b _ => if b then Except.ok 99 else Except.ok 1

/-! ## Codec lemmas -/

/-- Decoding undoes encoding for one natural, leaving the rest intact. -/
theorem decodeNat_encodeNat (n : Nat) (r : List Nat) :
    decodeNat (encodeNat n ++ r) = some (n, r) := by
  induction n with
  | zero => simp [encodeNat, decodeNat]
  | succ k ih =>
    have h : encodeNat (k + 1) ++ r = 1 :: (encodeNat k ++ r) := by
      simp [encodeNat, List.replicate_succ]
    rw [h]
    simp [decodeNat, ih]

/-- Decoding a known number of encoded naturals undoes their encoding. -/
theorem decodeNats_encode (l : List Nat) (r : List Nat) :
    decodeNats l.length ((l.map encodeNat).flatten ++ r) = some (l, r) := by
  induction l generalizing r with
  | nil => simp [decodeNats]
  | cons a t ih =>
    simp [decodeNats, List.append_assoc, decodeNat_encodeNat, ih]

/-- Decoding a length-prefixed list undoes its encoding. -/
theorem decodeNatList_encode (l : List Nat) (r : List Nat) :
    decodeNatList (encodeNatList l ++ r) = some (l, r) := by
  simp [decodeNatList, encodeNatList, List.append_assoc, decodeNat_encodeNat,
    decodeNats_encode]

/-- C9: for every valid bytecode unit `x`, deserializing the serialization
of `x` yields a unit structurally equal to `x`; consequently any execution
function produces an identical outcome on the round-tripped unit as on the
original. -/
theorem deserialize_serialize_roundtrip (c : ChunkM) :
    deserialize_chunk (serialize_chunk c) = Except.ok c ∧
    ∀ {α : Type} (execute : ChunkM → α),
      (deserialize_chunk (serialize_chunk c)).map execute =
        Except.ok (execute c) := by
  have h : deserialize_chunk (serialize_chunk c) = Except.ok c := by
    have h1 := decodeNatList_encode c.code (encodeNatList c.constants)
    have h2 : decodeNatList (encodeNatList c.constants) =
        some (c.constants, []) := by
      simpa using decodeNatList_encode c.constants []
    simp [serialize_chunk, deserialize_chunk, h1, h2]
  exact ⟨h, fun ex => by rw [h]; rfl⟩

/-! ## Loader theorems -/

/-- C3: when the extension hint is the precompiled-bytecode extension
`"fzb"`, the produced `FusabiScript` carries exactly the input bytes as
its `bytecode` field, and the result is identical for any two frontend /
codec service instances whatsoever — no compilation and no validation is
performed at load time. -/
theorem fzb_passthrough
    {Tok Prog Chunk LE PE CE SE Tok2 Prog2 Chunk2 LE2 PE2 CE2 SE2 : Type}
    (fe : Frontend Tok Prog Chunk LE PE CE SE)
    (fe2 : Frontend Tok2 Prog2 Chunk2 LE2 PE2 CE2 SE2)
    (fileName : Option (List Nat)) (bytes : List Nat)
    (hext : extOf fileName = "fzb") :
    load fe fileName bytes = Except.ok (FusabiScript.new (nameOf fileName) bytes) ∧
    (FusabiScript.new (nameOf fileName) bytes).bytecode = bytes ∧
    load fe fileName bytes = load fe2 fileName bytes := by
  refine ⟨?_, rfl, ?_⟩ <;> simp [load, hext]

/-- Witness for C3: loading the raw bytes `[0xDE, 0xAD]` under the file
name `"script.fzb"` yields them back unchanged. -/
theorem fzb_passthrough_witness :
    extOf (some fnFzb) = "fzb" ∧
    load feOk (some fnFzb) [222, 173] =
      Except.ok (FusabiScript.new "script" [222, 173]) := by
  refine ⟨by decide, ?_⟩
  have h := (fzb_passthrough feOk feLexFail (some fnFzb) [222, 173]
    (by decide)).1
  rw [h]
  rfl

/-- C4: on the source path the loader first decodes the bytes as UTF-8,
failing with the `Utf8` error on invalid bytes with a result independent
of every compile-stage service; on valid text the stages run in strict
order — tokenize, parse, compile, serialize — and the first failing stage
determines the result with its own error kind, later stages never being
consulted; when every stage succeeds the serialized bytecode is
returned. -/
theorem source_pipeline_order
    {Tok Prog Chunk LE PE CE SE : Type}
    (fe : Frontend Tok Prog Chunk LE PE CE SE)
    (fileName : Option (List Nat)) (bytes : List Nat)
    (hext : extOf fileName ≠ "fzb") :
    (utf8DecodeStr bytes = none →
      load fe fileName bytes =
        Except.error (FusabiLoaderError.Utf8 "invalid utf-8 sequence") ∧
      (∀ (Tok2 Prog2 Chunk2 LE2 PE2 CE2 SE2 : Type)
        (fe2 : Frontend Tok2 Prog2 Chunk2 LE2 PE2 CE2 SE2),
        load fe2 fileName bytes = load fe fileName bytes)) ∧
    (∀ src, utf8DecodeStr bytes = some src →
      (∀ e, fe.tokenize src = Except.error e →
        load fe fileName bytes =
          Except.error (FusabiLoaderError.Lexer (fe.fmtLex e))) ∧
      (∀ toks e, fe.tokenize src = Except.ok toks →
        fe.parseProgram toks = Except.error e →
        load fe fileName bytes =
          Except.error (FusabiLoaderError.Parser (fe.fmtParse e))) ∧
      (∀ toks prog e, fe.tokenize src = Except.ok toks →
        fe.parseProgram toks = Except.ok prog →
        fe.compileProgram prog = Except.error e →
        load fe fileName bytes =
          Except.error (FusabiLoaderError.Compiler (fe.fmtCompile e))) ∧
      (∀ toks prog chunk e, fe.tokenize src = Except.ok toks →
        fe.parseProgram toks = Except.ok prog →
        fe.compileProgram prog = Except.ok chunk →
        fe.serializeChunk chunk = Except.error e →
        load fe fileName bytes =
          Except.error (FusabiLoaderError.Bytecode (fe.fmtSer e))) ∧
      (∀ toks prog chunk bc, fe.tokenize src = Except.ok toks →
        fe.parseProgram toks = Except.ok prog →
        fe.compileProgram prog = Except.ok chunk →
        fe.serializeChunk chunk = Except.ok bc →
        load fe fileName bytes =
          Except.ok (FusabiScript.new (nameOf fileName) bc))) := by
  constructor
  · intro hdec
    constructor
    · simp [load, hext, loadFromSource, hdec]
    · intro Tok2 Prog2 Chunk2 LE2 PE2 CE2 SE2 fe2
      simp [load, hext, loadFromSource, hdec]
  · intro src hdec
    refine ⟨?_, ?_, ?_, ?_, ?_⟩
    · intro e htok
      simp [load, hext, loadFromSource, compile_source, hdec, htok]
    · intro toks e htok hparse
      simp [load, hext, loadFromSource, compile_source, hdec, htok, hparse]
    · intro toks prog e htok hparse hcomp
      simp [load, hext, loadFromSource, compile_source, hdec, htok, hparse,
        hcomp]
    · intro toks prog chunk e htok hparse hcomp hser
      simp [load, hext, loadFromSource, compile_source, hdec, htok, hparse,
        hcomp, hser]
    · intro toks prog chunk bc htok hparse hcomp hser
      simp [load, hext, loadFromSource, compile_source, hdec, htok, hparse,
        hcomp, hser]

/-- Witness for C4: a failing lexer surfaces the `Lexer` error on valid
source text, and invalid UTF-8 bytes surface the `Utf8` error. -/
theorem source_pipeline_order_witness :
    extOf (some fnFsx) ≠ "fzb" ∧
    utf8DecodeStr [104, 105] = some "hi" ∧
    load feLexFail (some fnFsx) [104, 105] =
      Except.error (FusabiLoaderError.Lexer "L") ∧
    load feOk (some fnFsx) [255] =
      Except.error (FusabiLoaderError.Utf8 "invalid utf-8 sequence") := by
  refine ⟨by decide, by decide, ?_, ?_⟩
  · have h := (((source_pipeline_order feLexFail (some fnFsx) [104, 105]
      (by decide)).2 "hi" (by decide)).1) () rfl
    rw [h]
    rfl
  · have h := ((source_pipeline_order feOk (some fnFsx) [255]
      (by decide)).1 (by decide)).1
    rw [h]

/-- C7: for every extension hint other than `"fzb"` — including an empty or
unrecognized extension — the loader takes the source-compilation branch
rather than failing on the extension, and when decoding and every compile
stage succeed it returns the compiled, serialized bytecode. -/
theorem unknown_ext_fallback
    {Tok Prog Chunk LE PE CE SE : Type}
    (fe : Frontend Tok Prog Chunk LE PE CE SE)
    (fileName : Option (List Nat)) (bytes : List Nat)
    (hext : extOf fileName ≠ "fzb") :
    load fe fileName bytes = loadFromSource fe (nameOf fileName) bytes ∧
    (∀ src toks prog chunk bc, utf8DecodeStr bytes = some src →
      fe.tokenize src = Except.ok toks →
      fe.parseProgram toks = Except.ok prog →
      fe.compileProgram prog = Except.ok chunk →
      fe.serializeChunk chunk = Except.ok bc →
      load fe fileName bytes =
        Except.ok (FusabiScript.new (nameOf fileName) bc)) := by
  constructor
  · simp [load, hext]
  · intro src toks prog chunk bc hdec htok hparse hcomp hser
    simp [load, hext, loadFromSource, compile_source, hdec, htok, hparse,
      hcomp, hser]

/-- Witness for C7: a file name with no extension at all still goes through
source compilation and succeeds. -/
theorem unknown_ext_fallback_witness :
    extOf (some fnBare) ≠ "fzb" ∧
    load feOk (some fnBare) [104, 105] =
      Except.ok (FusabiScript.new "script" [7]) := by
  refine ⟨by decide, ?_⟩
  have h := (unknown_ext_fallback feOk (some fnBare) [104, 105]
    (by decide)).2 "hi" () () () [7] (by decide) rfl rfl rfl rfl
  rw [h]
  rfl

/-- Helper: any asset the source branch produces carries the supplied
name. -/
theorem loadFromSource_ok_name
    {Tok Prog Chunk LE PE CE SE : Type}
    (fe : Frontend Tok Prog Chunk LE PE CE SE)
    (nm : String) (bytes : List Nat) (a : FusabiScript)
    (h : loadFromSource fe nm bytes = Except.ok a) : a.name = nm := by
  unfold loadFromSource at h
  cases hdec : utf8DecodeStr bytes with
  | none => rw [hdec] at h; simp at h
  | some src =>
    rw [hdec] at h
    dsimp only at h
    cases hcs : compile_source fe src with
    | error e => rw [hcs] at h; simp at h
    | ok chunk =>
      rw [hcs] at h
      dsimp only at h
      cases hser : fe.serializeChunk chunk with
      | error e => rw [hser] at h; simp at h
      | ok bc =>
        rw [hser] at h
        dsimp only at h
        simp [FusabiScript.new] at h
        rw [← h]

/-- C10: every successfully produced asset, on either branch, is named by
the UTF-8 decoding of the path's file stem, and falls back to the literal
`"unknown"` when the path has no file stem or the stem is not valid
UTF-8. -/
theorem name_from_file_stem
    {Tok Prog Chunk LE PE CE SE : Type}
    (fe : Frontend Tok Prog Chunk LE PE CE SE)
    (fileName : Option (List Nat)) (bytes : List Nat) (a : FusabiScript)
    (h : load fe fileName bytes = Except.ok a) :
    a.name = nameOf fileName ∧
    (∀ f s, fileName = some f → utf8DecodeStr (fileStemExt f).1 = some s →
      a.name = s) ∧
    (fileName = none → a.name = "unknown") ∧
    (∀ f, fileName = some f → utf8DecodeStr (fileStemExt f).1 = none →
      a.name = "unknown") := by
  have hname : a.name = nameOf fileName := by
    unfold load at h
    by_cases hx : extOf fileName = "fzb"
    · rw [if_pos hx] at h
      cases h
      rfl
    · rw [if_neg hx] at h
      exact loadFromSource_ok_name fe (nameOf fileName) bytes a h
  refine ⟨hname, ?_, ?_, ?_⟩
  · intro f s hf hstem
    rw [hname, hf]
    simp [nameOf, hstem]
  · intro hf
    rw [hname, hf]
    rfl
  · intro f hf hstem
    rw [hname, hf]
    simp [nameOf, hstem]

/-- Witness for C10: the asset loaded from `"script.fzb"` is named
`"script"`, the file stem. -/
theorem name_from_file_stem_witness :
    load feOk (some fnFzb) [1] = Except.ok (FusabiScript.new "script" [1]) ∧
    (FusabiScript.new "script" [1]).name = nameOf (some fnFzb) := by
  refine ⟨by rfl, ?_⟩
  exact (name_from_file_stem feOk (some fnFzb) [1]
    (FusabiScript.new "script" [1]) (by rfl)).1

/-- C5 counterexample: the bytes `[0xDE, 0xAD]` carry no valid
`FusabiHeader` (no magic sentinel, no version), yet loading them under the
`"fzb"` extension succeeds — the file is accepted, not rejected, so no
magic/version check happens before deserialization. -/
theorem header_never_checked_cex :
    load feOk (some fnFzb) [222, 173] =
      Except.ok (FusabiScript.new "script" [222, 173]) := by
  rfl

/-- C5 amended: the `FusabiHeader` type is declared but never consulted —
a `.fzb` file is accepted at load time as-is regardless of magic or
version, and a malformed file is only detected when the execution driver
attempts deserialization, which reports the codec failure and leaves the
runner unchanged. -/
theorem header_unvalidated_lazy_detection
    {Tok Prog Chunk LE PE CE SE Ch Vm Val RE : Type}
    (fe : Frontend Tok Prog Chunk LE PE CE SE)
    (fileName : Option (List Nat)) (bytes : List Nat)
    (hext : extOf fileName = "fzb")
    (env : RunnerEnv Ch Vm Val RE) (r : RunScript) (hr : r.executed = false)
    (hres : env.resolve r.handle =
      some (FusabiScript.new (nameOf fileName) bytes))
    (e : String) (hde : env.deserializeChunk bytes = Except.error e) :
    load fe fileName bytes =
      Except.ok (FusabiScript.new (nameOf fileName) bytes) ∧
    stepRunner env r =
      (r, [LogEntry.executing (nameOf fileName), LogEntry.chunkFailed e]) := by
  constructor
  · simp [load, hext]
  · simp [stepRunner, hr, hres, FusabiScript.new, hde]

/-- Witness for C5's amended statement: the malformed `.fzb` bytes fail at
the driver's deserialization step, leaving the runner pending. -/
theorem header_unvalidated_lazy_detection_witness :
    stepRunner envDeserFail r0 =
      (r0, [LogEntry.executing "script", LogEntry.chunkFailed "bad magic"]) := by
  have h := (header_unvalidated_lazy_detection feOk (some fnFzb) [222, 173]
    (by decide) envDeserFail r0 rfl (by rfl) "bad magic" rfl).2
  rw [h]
  rfl

/-! ## Execution-driver theorems -/

section RunnerProofs

variable {Ch Vm Val RE : Type}

/-- Helper: an already-executed runner is returned unchanged with no log,
whatever the environment. -/
theorem stepRunner_of_executed (env : RunnerEnv Ch Vm Val RE) (r : RunScript)
    (h : r.executed = true) : stepRunner env r = (r, []) := by
  simp [stepRunner, h]

/-- Helper: an already-executed runner's trajectory is constant. -/
theorem trajectory_of_executed (envs : List (RunnerEnv Ch Vm Val RE))
    (r : RunScript) (h : r.executed = true) :
    trajectory envs r = List.replicate (envs.length + 1) r := by
  induction envs with
  | nil => simp [trajectory]
  | cons env rest ih =>
    simp [trajectory, stepRunner_of_executed env r h, ih,
      List.replicate_succ]

/-- Helper: a constantly-true trace has no false-to-true transition. -/
theorem riseCount_replicate_true :
    ∀ n, riseCount (List.replicate n true) = 0
  | 0 => rfl
  | 1 => rfl
  | n + 2 => by
    have h := riseCount_replicate_true (n + 1)
    simp [List.replicate_succ, riseCount] at h ⊢
    simpa [List.replicate_succ] using h

/-- Helper: along any sequence of scheduling passes, a runner's `executed`
flag rises from false to true at most once. -/
theorem trajectory_riseCount_le_one (envs : List (RunnerEnv Ch Vm Val RE))
    (r : RunScript) :
    riseCount ((trajectory envs r).map (fun s => s.executed)) ≤ 1 := by
  induction envs generalizing r with
  | nil => simp [trajectory, riseCount]
  | cons env rest ih =>
    by_cases hr : r.executed
    · rw [trajectory_of_executed (env :: rest) r hr]
      simp only [List.map_replicate, hr]
      simp [riseCount_replicate_true]
    · simp only [trajectory, List.map_cons]
      set r2 := (stepRunner env r).1 with hr2
      by_cases hr2e : r2.executed
      · rw [trajectory_of_executed rest r2 hr2e]
        have hfalse : r.executed = false := by simpa using hr
        rw [List.replicate_succ, hfalse]
        simp only [List.map_cons, List.map_replicate, hr2e]
        have h0 : riseCount (true :: List.replicate rest.length true) = 0 := by
          simpa [List.replicate_succ] using
            riseCount_replicate_true (rest.length + 1)
        simp [riseCount, h0]
      · have h1 := ih r2
        cases hrest : trajectory rest r2 with
        | nil => cases rest <;> simp [trajectory] at hrest
        | cons s t =>
          have hs : s = r2 := by
            cases rest with
            | nil =>
              simp [trajectory] at hrest
              exact hrest.1.symm
            | cons e es =>
              simp [trajectory] at hrest
              exact hrest.1.symm
          rw [hrest] at h1
          subst hs
          have hfalse : r.executed = false := by simpa using hr
          have h2f : r2.executed = false := by simpa using hr2e
          rw [hfalse]
          simp only [List.map_cons] at h1 ⊢
          rw [h2f] at h1 ⊢
          simpa [riseCount] using h1

/-- C1: over any lifetime of scheduling passes a runner's `executed` flag
transitions from false to true at most once, and on any pass where
`executed` already holds, the step returns the runner unchanged with no
output for every environment whatsoever — so neither asset resolution,
nor deserialization, nor the VM can influence the result: the runner is
skipped entirely. -/
theorem executed_at_most_once
    (envs : List (RunnerEnv Ch Vm Val RE)) (r : RunScript) :
    riseCount ((trajectory envs r).map (fun s => s.executed)) ≤ 1 ∧
    (r.executed = true →
      ∀ env : RunnerEnv Ch Vm Val RE, stepRunner env r = (r, [])) := by
  exact ⟨trajectory_riseCount_le_one envs r,
    fun h env => stepRunner_of_executed env r h⟩

/-- Witness for C1: a concrete two-pass trajectory has at most one rise,
and an already-executed runner is skipped even by an environment that
would execute successfully. -/
theorem executed_at_most_once_witness :
    riseCount ((trajectory [envOk1, envOk1] r0).map (fun s => s.executed)) ≤ 1 ∧
    stepRunner envOk2 rDone = (rDone, []) := by
  refine ⟨(executed_at_most_once [envOk1, envOk1] r0).1, ?_⟩
  exact (executed_at_most_once ([] : List (RunnerEnv Unit Unit Nat Unit))
    rDone).2 rfl envOk2

/-- C2: a pending runner's `executed` flag becomes true only when the asset
resolves, deserializes, and the VM succeeds; when the handle is
unresolved, or deserialization fails, or the VM errors, the pass leaves
the runner's state unchanged, so it is re-evaluated next pass. -/
theorem executed_only_on_success
    (env : RunnerEnv Ch Vm Val RE) (r : RunScript) (h : r.executed = false) :
    ((stepRunner env r).1.executed = true →
      ∃ s c v, env.resolve r.handle = some s ∧
        env.deserializeChunk s.bytecode = Except.ok c ∧
        env.execute env.vmNew c = Except.ok v ∧
        (stepRunner env r).1 = { r with executed := true }) ∧
    (env.resolve r.handle = none → stepRunner env r = (r, [])) ∧
    (∀ s e, env.resolve r.handle = some s →
      env.deserializeChunk s.bytecode = Except.error e →
      (stepRunner env r).1 = r) ∧
    (∀ s c e, env.resolve r.handle = some s →
      env.deserializeChunk s.bytecode = Except.ok c →
      env.execute env.vmNew c = Except.error e →
      (stepRunner env r).1 = r) := by
  refine ⟨?_, ?_, ?_, ?_⟩
  · intro hx
    cases hres : env.resolve r.handle with
    | none => simp [stepRunner, h, hres] at hx
    | some s =>
      cases hde : env.deserializeChunk s.bytecode with
      | error e => simp [stepRunner, h, hres, hde] at hx
      | ok c =>
        cases hex : env.execute env.vmNew c with
        | error e => simp [stepRunner, h, hres, hde, hex] at hx
        | ok v =>
          exact ⟨s, c, v, rfl, hde, hex, by
            simp [stepRunner, h, hres, hde, hex]⟩
  · intro hres
    simp [stepRunner, h, hres]
  · intro s e hres hde
    simp [stepRunner, h, hres, hde]
  · intro s c e hres hde hex
    simp [stepRunner, h, hres, hde, hex]

/-- Witness for C2: a failing VM execution and a failing deserialization
each leave the concrete pending runner unchanged. -/
theorem executed_only_on_success_witness :
    (stepRunner envExecFail r0).1 = r0 ∧
    (stepRunner envDeserFail r0).1 = r0 := by
  constructor
  · exact (executed_only_on_success envExecFail r0 rfl).2.2.2
      (FusabiScript.new "script" [0]) () () rfl rfl rfl
  · exact (executed_only_on_success envDeserFail r0 rfl).2.2.1
      (FusabiScript.new "script" [222, 173]) "bad magic" rfl rfl

/-- C6 counterexample: two successful executions of the same pending runner
returning the distinct values 1 and 2 leave the runner in identical
states — `RunScript` has only `handle` and `executed`, so the resulting
value is not recorded on the runner's state, contrary to the claim. -/
theorem value_not_recorded_cex :
    envOk1.execute envOk1.vmNew () = Except.ok 1 ∧
    envOk2.execute envOk2.vmNew () = Except.ok 2 ∧
    (stepRunner envOk1 r0).1 = (stepRunner envOk2 r0).1 ∧
    (stepRunner envOk1 r0).1.executed = true := by
  exact ⟨rfl, rfl, rfl, rfl⟩

/-- C6 amended: when VM execution succeeds the driver sets
`executed := true` and reports the resulting value in its printed output;
the value is not stored on the runner's state. -/
theorem success_sets_executed_and_logs_value
    (env : RunnerEnv Ch Vm Val RE) (r : RunScript) (s : FusabiScript)
    (c : Ch) (v : Val) (h : r.executed = false)
    (hres : env.resolve r.handle = some s)
    (hde : env.deserializeChunk s.bytecode = Except.ok c)
    (hex : env.execute env.vmNew c = Except.ok v) :
    stepRunner env r = ({ r with executed := true },
      [LogEntry.executing s.name, LogEntry.result v]) := by
  simp [stepRunner, h, hres, hde, hex]

/-- Witness for C6's amended statement at a concrete successful pass. -/
theorem success_sets_executed_and_logs_value_witness :
    stepRunner envOk1 r0 = (⟨0, true⟩,
      [LogEntry.executing "script", LogEntry.result 1]) := by
  have h := success_sets_executed_and_logs_value envOk1 r0
    (FusabiScript.new "script" [0]) () 1 rfl rfl rfl rfl
  rw [h]
  rfl

/-- C8: in a scheduling pass each runner's final state is a function of its
own initial state and the shared read-only environment alone — the
outcome of any other runner, including a runtime error, cannot change
it, and the asset store is never written; moreover the pass's entire
behavior depends only on the execute function's values at the freshly
constructed VM state, since every invocation uses `Vm::new`. -/
theorem fresh_vm_and_runner_isolation
    (env : RunnerEnv Ch Vm Val RE) (rs : List RunScript) :
    (∀ j : Nat, (runScripts env rs).1[j]? =
      (rs[j]?).map (fun r => (stepRunner env r).1)) ∧
    (∀ ex1 ex2 : Vm → Ch → Except RE Val,
      (∀ c, ex1 env.vmNew c = ex2 env.vmNew c) →
      runScripts { env with execute := ex1 } rs =
        runScripts { env with execute := ex2 } rs) := by
  constructor
  · intro j
    simp [runScripts]
  · intro ex1 ex2 hagree
    have hstep : ∀ r, stepRunner { env with execute := ex1 } r =
        stepRunner { env with execute := ex2 } r := by
      intro r
      by_cases hr : r.executed
      · simp [stepRunner, hr]
      · cases hres : env.resolve r.handle with
        | none => simp [stepRunner, hr, hres]
        | some s =>
          cases hde : env.deserializeChunk s.bytecode with
          | error e => simp [stepRunner, hr, hres, hde]
          | ok c => simp [stepRunner, hr, hres, hde, hagree c]
    simp [runScripts, hstep]

/-- Witness for C8: two runners sharing one asset; replacing the execute
function by one that differs only on a stale VM state leaves the whole
pass unchanged, and the first runner's result is computed from its own
state alone. -/
theorem fresh_vm_and_runner_isolation_witness :
    runScripts { envFresh with execute := exA } [r0, r1] =
      runScripts { envFresh with execute := exB } [r0, r1] ∧
    (runScripts envFresh [r0, r1]).1[0]? = some ⟨0, true⟩ := by
  constructor
  · exact (fresh_vm_and_runner_isolation envFresh [r0, r1]).2 exA exB
      (fun c => rfl)
  · have h := (fresh_vm_and_runner_isolation envFresh [r0, r1]).1 0
    rw [h]
    rfl

end RunnerProofs

end BevyFusabi
